import Mathlib

/-!
# Transaction service (`main.go`): embedding and verified properties

The program is a single Go file: `main` (configuration, readiness probe, table
bootstrap, route registration), `transactionsHandler` and `healthHandler`.

Modelling choices.

* The database is an explicit `Store` (the rows of table `transactions` in
  insertion order plus the last value of the serial sequence behind `id`).
  Every database call a handler makes also consults a `DbEnv`, which says
  whether that call fails and how; handlers are state-passing functions.
* `encoding/json` is modelled on parsed JSON: a request body is either
  unreadable (`Body.malformed`) or a JSON value, and `decode` follows the
  rules `json.Decoder.Decode` applies to a `Transaction` target.
* `http.ResponseWriter` is a record of header, status and written chunks.
* `float64` amounts are never computed with; they are carried by bit pattern.
-/

namespace TransactionApi

/-! ## Data model -/

/-- A Go `float64`, kept as the bit pattern of a finite binary64 number. The
program only moves amounts between JSON and SQL. -/
structure Float64 where
  bits : Nat
deriving DecidableEq, Repr

/-- The struct `Transaction` of `main.go`. -/
structure Transaction where
  ID : Int
  Description : String
  Amount : Float64
deriving DecidableEq, Repr

/-- The zero value a `var t Transaction` declaration gives. -/
def Transaction.zero : Transaction := ⟨0, "", ⟨0⟩⟩

/-- A Go slice value: `none` is the nil slice, `some xs` a non-nil slice. -/
abbrev GoSlice (α : Type) := Option (List α)

/-- Go `append(s, x)`: the result is never nil. -/
def GoSlice.append {α : Type} (s : GoSlice α) (x : α) : GoSlice α :=
  some (s.getD [] ++ [x])

/-- The elements of a slice; the nil slice has none. -/
def GoSlice.elems {α : Type} (s : GoSlice α) : List α := s.getD []

/-! ## JSON, request side -/

/-- A JSON number token together with what `strconv.ParseInt(text, 10, 64)` and
`strconv.ParseFloat(text, 64)` return for it (`none`: the conversion fails). -/
structure NumLit where
  text : String
  asInt : Option Int
  asFloat : Option Float64

/-- A parsed JSON value. -/
inductive JSON where
  | null
  | bool (b : Bool)
  | number (n : NumLit)
  | string (s : String)
  | array (items : List JSON)
  | object (members : List (String × JSON))

/-- What the decoder reads from a request body: nothing usable (`err` is the
decoder's error text, e.g. a syntax error or `EOF`), or a JSON value. -/
inductive Body where
  | malformed (err : String)
  | value (v : JSON)

/-- The fields of `Transaction` in declaration order. -/
inductive Field where
  | id
  | description
  | amount
deriving DecidableEq, Repr

/-- The JSON name given by the struct tag. -/
def Field.name : Field → String
  | .id => "id"
  | .description => "description"
  | .amount => "amount"

/-- The Go type of the field, as printed in decode errors. -/
def Field.goType : Field → String
  | .id => "int"
  | .description => "string"
  | .amount => "float64"

/-- Case folding of one rune as the decoder does for key matching: ASCII
letters go to upper case, and the two non-ASCII runes whose fold orbit holds
an ASCII letter (long s U+017F, Kelvin sign U+212A) go to that letter. Other
runes never match an ASCII field name and are left as they are. -/
def foldRune (c : Char) : Char :=
  if c = Char.ofNat 0x17F then 'S'
  else if c = Char.ofNat 0x212A then 'K'
  else c.toUpper

/-- The folded form of a key. -/
def foldName (s : String) : String := String.mk (s.data.map foldRune)

/-- All fields, in declaration order. -/
def Field.all : List Field := [.id, .description, .amount]

/-- The field an object key is decoded into: an exact name match first, then a
case-insensitive one; `none` for an unknown key, which the decoder skips. -/
def lookupField (key : String) : Option Field :=
  match Field.all.find? (fun f => f.name = key) with
  | some f => some f
  | none => Field.all.find? (fun f => foldName f.name = foldName key)

/-- How a JSON value is described in an `UnmarshalTypeError`. -/
def JSON.describe : JSON → String
  | .null => "null"
  | .bool _ => "bool"
  | .number n => "number " ++ n.text
  | .string _ => "string"
  | .array _ => "array"
  | .object _ => "object"

/-- Text of the `UnmarshalTypeError` for value `v` met at field `f`. -/
def fieldTypeError (v : JSON) (f : Field) : String :=
  "json: cannot unmarshal " ++ v.describe ++ " into Go struct field Transaction."
    ++ f.name ++ " of type " ++ f.goType

/-- Decoding one member value into field `f` of `t`. JSON `null` leaves the
field alone; a value of the wrong kind, or a number the field's type cannot
hold, leaves the field alone and reports a type error. -/
def setField (t : Transaction) (f : Field) (v : JSON) : Transaction × Option String :=
  match f, v with
  | _, .null => (t, none)
  | .id, .number n =>
    match n.asInt with
    | some i => ({ t with ID := i }, none)
    | none => (t, some (fieldTypeError v f))
  | .description, .string s => ({ t with Description := s }, none)
  | .amount, .number n =>
    match n.asFloat with
    | some x => ({ t with Amount := x }, none)
    | none => (t, some (fieldTypeError v f))
  | _, _ => (t, some (fieldTypeError v f))

/-- Decoding the members of an object in order. Unknown keys are skipped, a
later duplicate overwrites an earlier one, and the first type error is the
one kept while decoding goes on. -/
def decodeMembers : List (String × JSON) → Transaction → Option String →
    Transaction × Option String
  | [], t, err => (t, err)
  | (k, v) :: rest, t, err =>
    match lookupField k with
    | none => decodeMembers rest t err
    | some f =>
      decodeMembers rest (setField t f v).1
        (match err with
          | some e => some e
          | none => (setField t f v).2)

/-- The call `json.NewDecoder(r.Body).Decode(&t)` on a zero `t`: the error
text, or the decoded struct. Only an object or `null` fits a struct. -/
def decode (b : Body) : Except String Transaction :=
  match b with
  | .malformed err => .error err
  | .value .null => .ok Transaction.zero
  | .value (.object members) =>
    match decodeMembers members Transaction.zero none with
    | (t, none) => .ok t
    | (_, some e) => .error e
  | .value v =>
    .error ("json: cannot unmarshal " ++ v.describe ++ " into Go value of type main.Transaction")

/-! ## JSON, response side -/

/-- A scalar written by the encoder. -/
inductive JScalar where
  | int (i : Int)
  | float (x : Float64)
  | string (s : String)
deriving DecidableEq, Repr

/-- A JSON object as the encoder writes it: members in field order. -/
abbrev JObject := List (String × JScalar)

/-- The documents this program can encode. -/
inductive JDoc where
  | null
  | object (o : JObject)
  | array (items : List JObject)
deriving DecidableEq, Repr

/-- The encoding of a `Transaction`: the three tagged fields, in order. -/
def Transaction.toJSON (t : Transaction) : JObject :=
  [("id", .int t.ID), ("description", .string t.Description), ("amount", .float t.Amount)]

/-- The encoding of a `[]Transaction`: a nil slice encodes as `null`, any
other slice as an array. -/
def marshalTransactions (ts : GoSlice Transaction) : JDoc :=
  match ts with
  | none => .null
  | some xs => .array (xs.map Transaction.toJSON)

/-! ## The response writer -/

/-- A piece of response body: raw text, or a document written by
`json.Encoder.Encode` (its JSON text followed by a newline). -/
inductive Chunk where
  | text (s : String)
  | json (doc : JDoc)
deriving DecidableEq, Repr

/-- An `http.ResponseWriter`: `status` is `none` until the header is written. -/
structure ResponseWriter where
  header : List (String × String)
  status : Option Nat
  body : List Chunk
deriving DecidableEq, Repr

/-- The writer a handler is given. -/
def ResponseWriter.new : ResponseWriter := ⟨[], none, []⟩

/-- The call `w.Header().Set(k, v)`; it has no effect once the header is written. -/
def ResponseWriter.setHeader (w : ResponseWriter) (k v : String) : ResponseWriter :=
  match w.status with
  | some _ => w
  | none => { w with header := w.header.filter (fun p => p.1 ≠ k) ++ [(k, v)] }

/-- The call `w.WriteHeader(code)`; only the first call counts. -/
def ResponseWriter.writeHeader (w : ResponseWriter) (code : Nat) : ResponseWriter :=
  match w.status with
  | some _ => w
  | none => { w with status := some code }

/-- The call `w.Write`: writes the header with status 200 if none was written. -/
def ResponseWriter.write (w : ResponseWriter) (c : Chunk) : ResponseWriter :=
  let w1 := w.writeHeader 200
  { w1 with body := w1.body ++ [c] }

/-- The status the client receives: 200 when the handler never set one. -/
def ResponseWriter.code (w : ResponseWriter) : Nat := w.status.getD 200

/-- The function `http.Error(w, msg, code)`: plain-text headers, the status, and
the message as one line. -/
def httpError (w : ResponseWriter) (msg : String) (code : Nat) : ResponseWriter :=
  (((w.setHeader "Content-Type" "text/plain; charset=utf-8").setHeader
    "X-Content-Type-Options" "nosniff").writeHeader code).write (.text (msg ++ "\n"))

/-- The call `json.NewEncoder(w).Encode(v)` for a document `v`. -/
def encode (w : ResponseWriter) (doc : JDoc) : ResponseWriter := w.write (.json doc)

def statusOK : Nat := 200
def statusBadRequest : Nat := 400
def statusMethodNotAllowed : Nat := 405
def statusInternalServerError : Nat := 500

/-! ## The database -/

/-- Table `transactions` (rows in insertion order) and the last value handed
out by the serial sequence of column `id`. -/
structure Store where
  rows : List Transaction
  seq : Int
deriving DecidableEq, Repr

/-- A failing INSERT: its error text, and whether a sequence value was drawn
before the failure. -/
structure InsertFault where
  err : String
  seqConsumed : Bool
deriving DecidableEq, Repr

/-- What the database does to the calls of one request.
* `queryErr`: `db.Query` returns this error;
* `scanErr = some (k, e)`: `rows.Scan` on the row at position `k` returns `e`;
* `iterErr = some (k, e)`: the result stream breaks after `k` rows, so
  `rows.Next` returns false there and `rows.Err()` is `e`;
* `insertFault`: the INSERT fails. -/
structure DbEnv where
  queryErr : Option String
  scanErr : Option (Nat × String)
  iterErr : Option (Nat × String)
  insertFault : Option InsertFault
deriving DecidableEq, Repr

/-- A request during which the database does not fail. -/
def DbEnv.healthy : DbEnv := ⟨none, none, none, none⟩

/-- Insertion of a row into a list ordered by ascending id. -/
def insertById (r : Transaction) : List Transaction → List Transaction
  | [] => [r]
  | x :: xs => if r.ID < x.ID then r :: x :: xs else x :: insertById r xs

/-- The rows in `ORDER BY id` order. -/
def orderById : List Transaction → List Transaction
  | [] => []
  | r :: rs => insertById r (orderById rs)

/-- An open result set: what each successive `Next`/`Scan` pair yields while
`Next` returns true, and the value of `rows.Err()` once it returns false. -/
structure Rows where
  pending : List (Except String Transaction)
  err : Option String

/-- The outcome of `Scan` on each delivered row, `i` being the position of the
first row of the list. -/
def scanOutcomes (scanErr : Option (Nat × String)) : Nat → List Transaction →
    List (Except String Transaction)
  | _, [] => []
  | i, r :: rs =>
    (match scanErr with
      | some (k, e) => if k = i then Except.error e else Except.ok r
      | none => Except.ok r) :: scanOutcomes scanErr (i + 1) rs

/-- The call `db.Query("SELECT id, description, amount FROM transactions ORDER BY id")`. -/
def Store.query (db : Store) (env : DbEnv) : Except String Rows :=
  match env.queryErr with
  | some e => .error e
  | none =>
    let sorted := orderById db.rows
    let delivered :=
      match env.iterErr with
      | some (k, _) => sorted.take k
      | none => sorted
    .ok ⟨scanOutcomes env.scanErr 0 delivered, env.iterErr.map Prod.snd⟩

/-- Largest value of a `SERIAL` sequence. -/
def serialMax : Int := 2147483647

/-- The statement `INSERT INTO transactions (description, amount) VALUES ($1, $2)
RETURNING id`: the id is the next sequence value; the insert fails on an
injected fault, on an exhausted sequence and on a primary-key clash. -/
def Store.insert (db : Store) (env : DbEnv) (description : String) (amount : Float64) :
    Store × Except String Int :=
  match env.insertFault with
  | some f => ({ db with seq := if f.seqConsumed then db.seq + 1 else db.seq }, .error f.err)
  | none =>
    let id := db.seq + 1
    if serialMax < id then
      (db, .error "pq: nextval: reached maximum value of sequence \"transactions_id_seq\"")
    else if db.rows.any (fun r => r.ID = id) then
      ({ db with seq := id },
        .error "pq: duplicate key value violates unique constraint \"transactions_pkey\"")
    else
      (⟨db.rows ++ [⟨id, description, amount⟩], id⟩, .ok id)

/-! ## Handlers -/

/-- A database call issued by a handler. -/
inductive DbCall where
  | query (sql : String)
  | queryRow (sql : String) (description : String) (amount : Float64)
deriving DecidableEq, Repr

/-- An incoming request. -/
structure Request where
  method : String
  path : String
  body : Body

/-- The result of running a handler: the database afterwards, the response
written, and the database calls made. -/
structure Served where
  db : Store
  w : ResponseWriter
  calls : List DbCall
deriving DecidableEq, Repr

def selectSQL : String := "SELECT id, description, amount FROM transactions ORDER BY id"

def insertSQL : String :=
  "INSERT INTO transactions (description, amount) VALUES ($1, $2) RETURNING id"

/-- The loop `for rows.Next() { ... rows.Scan ...; transactions = append(...) }`:
the first scan error ends the handler; otherwise the slice built when `Next`
returns false. -/
def scanLoop : List (Except String Transaction) → GoSlice Transaction →
    Except String (GoSlice Transaction)
  | [], acc => .ok acc
  | .error e :: _, _ => .error e
  | .ok t :: rest, acc => scanLoop rest (acc.append t)

/-- The function `transactionsHandler`. -/
def transactionsHandler (db : Store) (env : DbEnv) (w : ResponseWriter) (r : Request) : Served :=
  if r.method = "GET" then
    match db.query env with
    | .error e => ⟨db, httpError w e statusInternalServerError, [.query selectSQL]⟩
    | .ok rows =>
      match scanLoop rows.pending none with
      | .error e => ⟨db, httpError w e statusInternalServerError, [.query selectSQL]⟩
      | .ok transactions =>
        ⟨db, encode (w.setHeader "Content-Type" "application/json")
          (marshalTransactions transactions), [.query selectSQL]⟩
  else if r.method = "POST" then
    match decode r.body with
    | .error e => ⟨db, httpError w e statusBadRequest, []⟩
    | .ok t =>
      match db.insert env t.Description t.Amount with
      | (db1, .error e) =>
        ⟨db1, httpError w e statusInternalServerError,
          [.queryRow insertSQL t.Description t.Amount]⟩
      | (db1, .ok id) =>
        ⟨db1, encode (w.setHeader "Content-Type" "application/json")
          (.object ({ t with ID := id }).toJSON),
          [.queryRow insertSQL t.Description t.Amount]⟩
  else
    ⟨db, httpError w "Method not allowed" statusMethodNotAllowed, []⟩

/-- The function `healthHandler`. -/
def healthHandler (db : Store) (_env : DbEnv) (w : ResponseWriter) (_r : Request) : Served :=
  ⟨db, (w.writeHeader statusOK).write (.text "OK"), []⟩

/-- The default mux with the two routes registered in `main`; any other path
gets the mux's 404. -/
def serveMux (db : Store) (env : DbEnv) (r : Request) : Served :=
  if r.path = "/transactions" then transactionsHandler db env ResponseWriter.new r
  else if r.path = "/health" then healthHandler db env ResponseWriter.new r
  else ⟨db, httpError ResponseWriter.new "404 page not found" 404, []⟩

/-- One request together with the database behaviour during it. -/
structure Exchange where
  env : DbEnv
  req : Request

/-- Requests served one after the other: the final database and every result. -/
def serve : Store → List Exchange → Store × List Served
  | db, [] => (db, [])
  | db, x :: xs =>
    let s := serveMux db x.env x.req
    ((serve s.db xs).1, s :: (serve s.db xs).2)

/-! ## Startup: the readiness probe and table bootstrap of `main` -/

/-- What `main` does after configuration, as observable events. Log lines are
kept with their format arguments. -/
inductive Event where
  | ping (i : Nat) (result : Option String)
  | logRetry (attempt max : Nat) (err : String)
  | sleep (seconds : Nat)
  | fatalOpen (err : String)
  | fatalConnect (attempts : Nat) (err : String)
  | logConnected
  | exec (sql : String)
  | fatalCreate (err : String)
  | handleFunc (pattern : String)
  | logRunning
  | listenAndServe (addr : String)
deriving DecidableEq, Repr

def maxRetries : Nat := 30

def createTableSQL : String :=
  "CREATE TABLE IF NOT EXISTS transactions (id SERIAL PRIMARY KEY, description TEXT, amount NUMERIC)"

/-- The loop `for i := 0; i < maxRetries; i++ { err = db.Ping(); ... }`, run
from counter `i` with `fuel` iterations left (`fuel = max - i` on entry).
`ping i` is the result of the call made at counter `i` (`none`: success).
Returns the value of `err` when the loop is left, and the events. -/
def pingLoop (ping : Nat → Option String) (max : Nat) :
    Nat → Nat → Option String → Option String × List Event
  | 0, _, err => (err, [])
  | fuel + 1, i, err =>
    if i < max then
      match ping i with
      | none => (none, [.ping i none])
      | some e =>
        ((pingLoop ping max fuel (i + 1) (some e)).1,
          .ping i (some e) :: .logRetry (i + 1) max e :: .sleep 1 ::
            (pingLoop ping max fuel (i + 1) (some e)).2)
    else (err, [])

/-- The part of `main` after the table statement was sent. -/
def afterCreate (createErr : Option String) : List Event :=
  match createErr with
  | some e => [.fatalCreate e]
  | none =>
    [.handleFunc "/transactions", .handleFunc "/health", .logRunning, .listenAndServe ":8080"]

/-- The part of `main` after a successful `sql.Open`: the readiness probe, then
table creation and the listener. -/
def bootstrap (ping : Nat → Option String) (createErr : Option String) : List Event :=
  match pingLoop ping maxRetries maxRetries 0 none with
  | (some e, evs) => evs ++ [.fatalConnect maxRetries e]
  | (none, evs) => evs ++ [.logConnected, .exec createTableSQL] ++ afterCreate createErr

/-- What the environment does during startup. -/
structure StartupEnv where
  openErr : Option String
  ping : Nat → Option String
  createErr : Option String

/-- The function `main`, from `sql.Open` on. -/
def main (env : StartupEnv) : List Event :=
  match env.openErr with
  | some e => [.fatalOpen e]
  | none => bootstrap env.ping env.createErr

/-! ## Observations used in the statements -/

def Event.isPing : Event → Bool
  | .ping _ _ => true
  | _ => false

def Event.isSleep : Event → Bool
  | .sleep _ => true
  | _ => false

def Event.isFatalConnect : Event → Bool
  | .fatalConnect _ _ => true
  | _ => false

/-- Number of liveness checks issued. -/
def pingCount (evs : List Event) : Nat := evs.countP Event.isPing

/-- Number of sleeps. -/
def sleepCount (evs : List Event) : Nat := evs.countP Event.isSleep

/-- Every sleep is followed, later in the run, by another liveness check. -/
def sleepOnlyBeforeRetry : List Event → Bool
  | [] => true
  | .sleep _ :: rest => rest.any Event.isPing && sleepOnlyBeforeRetry rest
  | _ :: rest => sleepOnlyBeforeRetry rest

/-- Number of liveness checks that fail in a row from counter `i` on, looking
at no more than `fuel` of them. -/
def failuresFrom (ping : Nat → Option String) : Nat → Nat → Nat
  | 0, _ => 0
  | fuel + 1, i =>
    match ping i with
    | none => 0
    | some _ => failuresFrom ping fuel (i + 1) + 1

/-- The position (from 0) of the first successful liveness check among the
first `maxRetries`, or `maxRetries` when they all fail. -/
def leadingFailures (ping : Nat → Option String) : Nat := failuresFrom ping maxRetries 0

/-- The events of the failed attempts `i, i+1, ..., i+n-1`: check, log line,
one-second sleep. -/
def retryEvents (ping : Nat → Option String) : Nat → Nat → List Event
  | 0, _ => []
  | n + 1, i =>
    .ping i (ping i) :: .logRetry (i + 1) maxRetries ((ping i).getD "") :: .sleep 1 ::
      retryEvents ping n (i + 1)

/-- The id a response reports for a created row: the `id` member of a single
encoded object. -/
def createdId (w : ResponseWriter) : Option Int :=
  match w.body with
  | [.json (.object (("id", .int n) :: _))] => if w.code = 200 then some n else none
  | _ => none

/-- The ids reported by the successful creations among the results, in order. -/
def createdIds (rs : List Served) : List Int := rs.filterMap (fun s => createdId s.w)

/-- The sequence handed to the encoder by a list response, when there is one. -/
def listedTransactions (db : Store) (env : DbEnv) : Option (GoSlice Transaction) :=
  match db.query env with
  | .error _ => none
  | .ok rows =>
    match scanLoop rows.pending none with
    | .error _ => none
    | .ok ts => some ts

/-! ## Concrete inputs used in the examples -/

/-- An empty table whose sequence has not been used. -/
def emptyStore : Store := ⟨[], 0⟩

/-- A table holding two rows. -/
def twoRows : Store := ⟨[⟨1, "rent", ⟨1⟩⟩, ⟨2, "coffee", ⟨2⟩⟩], 2⟩

/-- The request `GET /transactions`. -/
def getRequest : Request := ⟨"GET", "/transactions", .malformed "EOF"⟩

/-- The request `PUT /transactions`. -/
def putRequest : Request := ⟨"PUT", "/transactions", .malformed "EOF"⟩

/-- A `POST /transactions` with the given body. -/
def postRequest (b : Body) : Request := ⟨"POST", "/transactions", b⟩

/-- The body `{"description":"coffee"}`: no `amount`. -/
def bodyNoAmount : Body := .value (.object [("description", .string "coffee")])

/-- The body `{"id":7,"description":"coffee","amount":2.5}`. -/
def bodyWithId : Body :=
  .value (.object [("id", .number ⟨"7", some 7, some ⟨4619567317775286272⟩⟩),
    ("description", .string "coffee"),
    ("amount", .number ⟨"2.5", none, some ⟨4612811918334230528⟩⟩)])

/-- The body `{"description":"coffee","amount":2.5}`. -/
def bodyPlain : Body :=
  .value (.object [("description", .string "coffee"),
    ("amount", .number ⟨"2.5", none, some ⟨4612811918334230528⟩⟩)])

/-- The body `{"description":"coffee","amount":"a lot"}`: `amount` is a string. -/
def bodyBadAmount : Body :=
  .value (.object [("description", .string "coffee"), ("amount", .string "a lot")])

/-- A database whose result stream breaks after the first row. -/
def brokenStream : DbEnv := { DbEnv.healthy with iterErr := some (1, "driver: bad connection") }

/-- Whether some member of an object is decoded into field `f`. -/
def hasField (members : List (String × JSON)) (f : Field) : Bool :=
  members.any (fun kv => lookupField kv.1 = some f)

/-- The description and amount of a transaction: what a client posts. -/
def descAmount (t : Transaction) : String × Float64 := (t.Description, t.Amount)

/-- Two creations in a row, each with a healthy database: first the body
without `amount`, then the body carrying a client-chosen `id`. -/
def twoPosts : List Exchange :=
  [⟨DbEnv.healthy, postRequest bodyNoAmount⟩, ⟨DbEnv.healthy, postRequest bodyWithId⟩]

/-! ## Lemmas on the response writer -/

theorem httpError_new (msg : String) (code : Nat) :
    httpError ResponseWriter.new msg code =
      ⟨[("Content-Type", "text/plain; charset=utf-8"), ("X-Content-Type-Options", "nosniff")],
        some code, [.text (msg ++ "\n")]⟩ := by
  rfl

theorem encode_new (doc : JDoc) :
    encode (ResponseWriter.new.setHeader "Content-Type" "application/json") doc =
      ⟨[("Content-Type", "application/json")], some 200, [.json doc]⟩ := by
  rfl

/-! ## Health endpoint -/

/-- Claim C10: whatever the request (method, body) and whatever the database
holds or does, `healthHandler` answers status 200 with body exactly `OK`,
makes no database call and leaves the database as it was; the mux sends every
request for `/health` to it. -/
theorem health_always_ok (db : Store) (env : DbEnv) (r : Request) :
    (healthHandler db env ResponseWriter.new r).w.code = 200 ∧
    (healthHandler db env ResponseWriter.new r).w.body = [.text "OK"] ∧
    (healthHandler db env ResponseWriter.new r).calls = [] ∧
    (healthHandler db env ResponseWriter.new r).db = db ∧
    serveMux db env { r with path := "/health" } =
      healthHandler db env ResponseWriter.new { r with path := "/health" } := by
  refine ⟨rfl, rfl, rfl, rfl, ?_⟩
  simp [serveMux]

/-! ## Method dispatch -/

/-- Claim C8: a request to `transactionsHandler` whose method is neither `GET`
nor `POST` gets status 405 with the line `Method not allowed` as body (the
text `http.Error` writes, newline-terminated); no database call is made and
the database is unchanged. -/
theorem other_method_not_allowed (db : Store) (env : DbEnv) (r : Request)
    (hget : r.method ≠ "GET") (hpost : r.method ≠ "POST") :
    (transactionsHandler db env ResponseWriter.new r).w.code = 405 ∧
    (transactionsHandler db env ResponseWriter.new r).w.body = [.text "Method not allowed\n"] ∧
    (transactionsHandler db env ResponseWriter.new r).calls = [] ∧
    (transactionsHandler db env ResponseWriter.new r).db = db := by
  have h : transactionsHandler db env ResponseWriter.new r =
      ⟨db, httpError ResponseWriter.new "Method not allowed" statusMethodNotAllowed, []⟩ := by
    simp only [transactionsHandler, if_neg hget, if_neg hpost]
  rw [h, httpError_new]
  exact ⟨rfl, rfl, rfl, rfl⟩

/-- Claim C8 at `PUT /transactions` on a two-row table. -/
theorem other_method_not_allowed_witness :
    (transactionsHandler twoRows DbEnv.healthy ResponseWriter.new putRequest).w.code = 405 ∧
    (transactionsHandler twoRows DbEnv.healthy ResponseWriter.new putRequest).w.body =
      [.text "Method not allowed\n"] ∧
    (transactionsHandler twoRows DbEnv.healthy ResponseWriter.new putRequest).calls = [] ∧
    (transactionsHandler twoRows DbEnv.healthy ResponseWriter.new putRequest).db = twoRows :=
  other_method_not_allowed twoRows DbEnv.healthy putRequest (by decide) (by decide)

/-! ## Create: decode failure -/

/-- Claim C5: a `POST` whose body fails to decode into a `Transaction` gets
status 400 with the decode error text as body (one line); no INSERT or other
database call is issued and the database is exactly as before. -/
theorem decode_failure_bad_request (db : Store) (env : DbEnv) (r : Request) (e : String)
    (hm : r.method = "POST") (hd : decode r.body = .error e) :
    (transactionsHandler db env ResponseWriter.new r).w.code = 400 ∧
    (transactionsHandler db env ResponseWriter.new r).w.body = [.text (e ++ "\n")] ∧
    (transactionsHandler db env ResponseWriter.new r).calls = [] ∧
    (transactionsHandler db env ResponseWriter.new r).db = db := by
  have hg : r.method ≠ "GET" := by rw [hm]; decide
  have h : transactionsHandler db env ResponseWriter.new r =
      ⟨db, httpError ResponseWriter.new e statusBadRequest, []⟩ := by
    simp only [transactionsHandler, if_neg hg, if_pos hm, hd]
  rw [h, httpError_new]
  exact ⟨rfl, rfl, rfl, rfl⟩

/-- Claim C5 at a body whose `amount` is a JSON string, on a two-row table. -/
theorem decode_failure_bad_request_witness :
    (transactionsHandler twoRows DbEnv.healthy ResponseWriter.new
      (postRequest bodyBadAmount)).w.code = 400 ∧
    (transactionsHandler twoRows DbEnv.healthy ResponseWriter.new
      (postRequest bodyBadAmount)).w.body =
      [.text ("json: cannot unmarshal string into Go struct field Transaction.amount of type float64"
        ++ "\n")] ∧
    (transactionsHandler twoRows DbEnv.healthy ResponseWriter.new
      (postRequest bodyBadAmount)).calls = [] ∧
    (transactionsHandler twoRows DbEnv.healthy ResponseWriter.new
      (postRequest bodyBadAmount)).db = twoRows :=
  decode_failure_bad_request twoRows DbEnv.healthy (postRequest bodyBadAmount) _ rfl rfl

/-! ## List: the empty table and the broken stream -/

/-- Claim C1, evaluated: on an empty table with a healthy database, the list
handler answers 200 with content type `application/json`, but the slice given
to the encoder is the nil slice `var transactions []Transaction` was declared
as, so the document written is `null` and not the empty array. -/
theorem empty_table_lists_null (seq : Int) :
    listedTransactions ⟨[], seq⟩ DbEnv.healthy = some none ∧
    (transactionsHandler ⟨[], seq⟩ DbEnv.healthy ResponseWriter.new getRequest).w =
      ⟨[("Content-Type", "application/json")], some 200, [.json .null]⟩ ∧
    (transactionsHandler ⟨[], seq⟩ DbEnv.healthy ResponseWriter.new getRequest).w.body ≠
      [.json (.array [])] := by
  refine ⟨rfl, rfl, ?_⟩
  show ([Chunk.json JDoc.null] : List Chunk) ≠ [Chunk.json (JDoc.array [])]
  decide

/-- Claim C3, evaluated: on a two-row table whose result stream breaks after
the first row (`rows.Next` returns false and `rows.Err()` holds the error), the
list handler never looks at `rows.Err()` and answers 200 with the one row read
before the error. A failing query and a failing scan on the same table do get
status 500 with the error text. -/
theorem broken_stream_lists_partial :
    (match twoRows.query brokenStream with
      | .ok rows => rows.err = some "driver: bad connection" ∧ rows.pending.length = 1
      | .error _ => False) ∧
    (transactionsHandler twoRows brokenStream ResponseWriter.new getRequest).w =
      ⟨[("Content-Type", "application/json")], some 200,
        [.json (.array [[("id", .int 1), ("description", .string "rent"), ("amount", .float ⟨1⟩)]])]⟩ ∧
    (transactionsHandler twoRows { DbEnv.healthy with queryErr := some "pq: connection refused" }
      ResponseWriter.new getRequest).w =
      httpError ResponseWriter.new "pq: connection refused" 500 ∧
    (transactionsHandler twoRows { DbEnv.healthy with scanErr := some (1, "sql: Scan error") }
      ResponseWriter.new getRequest).w =
      httpError ResponseWriter.new "sql: Scan error" 500 := by
  refine ⟨⟨rfl, rfl⟩, ?_, ?_, ?_⟩ <;> decide

/-! ## Create -/

theorem setField_description (t : Transaction) (f : Field) (v : JSON) (hf : f ≠ .description) :
    (setField t f v).1.Description = t.Description := by
  cases f <;> cases v <;> simp only [setField] <;> first | rfl | (split <;> rfl) | exact absurd rfl hf

theorem setField_amount (t : Transaction) (f : Field) (v : JSON) (hf : f ≠ .amount) :
    (setField t f v).1.Amount = t.Amount := by
  cases f <;> cases v <;> simp only [setField] <;> first | rfl | (split <;> rfl) | exact absurd rfl hf

theorem decodeMembers_description (ms : List (String × JSON)) (t : Transaction)
    (err : Option String) (h : hasField ms .description = false) :
    (decodeMembers ms t err).1.Description = t.Description := by
  induction ms generalizing t err with
  | nil => rfl
  | cons kv rest ih =>
    obtain ⟨k, v⟩ := kv
    simp only [hasField, List.any_cons, Bool.or_eq_false_iff, decide_eq_false_iff_not] at h
    have hrest : hasField rest .description = false := h.2
    simp only [decodeMembers]
    cases hk : lookupField k with
    | none => exact ih t err hrest
    | some f =>
      have hf : f ≠ .description := by
        intro hc
        exact h.1 (by rw [hk, hc])
      simp only
      rw [ih _ _ hrest, setField_description t f v hf]

theorem decodeMembers_amount (ms : List (String × JSON)) (t : Transaction)
    (err : Option String) (h : hasField ms .amount = false) :
    (decodeMembers ms t err).1.Amount = t.Amount := by
  induction ms generalizing t err with
  | nil => rfl
  | cons kv rest ih =>
    obtain ⟨k, v⟩ := kv
    simp only [hasField, List.any_cons, Bool.or_eq_false_iff, decide_eq_false_iff_not] at h
    have hrest : hasField rest .amount = false := h.2
    simp only [decodeMembers]
    cases hk : lookupField k with
    | none => exact ih t err hrest
    | some f =>
      have hf : f ≠ .amount := by
        intro hc
        exact h.1 (by rw [hk, hc])
      simp only
      rw [ih _ _ hrest, setField_amount t f v hf]

/-- The decoded struct of an object body is what `decodeMembers` built. -/
theorem decode_object_ok (ms : List (String × JSON)) (t : Transaction)
    (hd : decode (.value (.object ms)) = .ok t) :
    t = (decodeMembers ms Transaction.zero none).1 := by
  simp only [decode] at hd
  split at hd
  · rename_i t1 heq
    rw [heq]
    exact ((Except.ok.injEq _ _).mp hd).symm
  · exact absurd hd (by simp)

/-- The handler on a `POST` that decodes: the INSERT is issued with the decoded
description and amount, and the response follows its outcome. -/
theorem post_decoded (db : Store) (env : DbEnv) (r : Request) (t : Transaction)
    (hm : r.method = "POST") (hd : decode r.body = .ok t) :
    transactionsHandler db env ResponseWriter.new r =
      match db.insert env t.Description t.Amount with
      | (db1, .error e) =>
        ⟨db1, httpError ResponseWriter.new e statusInternalServerError,
          [.queryRow insertSQL t.Description t.Amount]⟩
      | (db1, .ok id) =>
        ⟨db1, encode (ResponseWriter.new.setHeader "Content-Type" "application/json")
          (.object ({ t with ID := id }).toJSON),
          [.queryRow insertSQL t.Description t.Amount]⟩ := by
  have hg : r.method ≠ "GET" := by rw [hm]; decide
  simp only [transactionsHandler, if_neg hg, if_pos hm, hd]

/-- A successful INSERT appends one row carrying the next sequence value. -/
theorem insert_ok (db db1 : Store) (env : DbEnv) (d : String) (a : Float64) (id : Int)
    (h : db.insert env d a = (db1, .ok id)) :
    id = db.seq + 1 ∧ db1 = ⟨db.rows ++ [⟨id, d, a⟩], id⟩ := by
  unfold Store.insert at h
  split at h
  · simp at h
  · simp only at h
    split at h
    · simp at h
    · split at h
      · simp at h
      · simp only [Prod.mk.injEq, Except.ok.injEq] at h
        obtain ⟨h1, h2⟩ := h
        subst h2
        exact ⟨rfl, h1.symm⟩

/-- Claim C2, refuted as stated: the body `{"description":"coffee"}` has no
`amount`, yet the handler decodes it, issues the INSERT with amount 0 and
answers 200 (not 400); the empty table now holds one row. -/
theorem missing_amount_is_inserted :
    hasField [("description", JSON.string "coffee")] .amount = false ∧
    (transactionsHandler emptyStore DbEnv.healthy ResponseWriter.new
      (postRequest bodyNoAmount)).w.code = 200 ∧
    (transactionsHandler emptyStore DbEnv.healthy ResponseWriter.new
      (postRequest bodyNoAmount)).w.code ≠ 400 ∧
    (transactionsHandler emptyStore DbEnv.healthy ResponseWriter.new
      (postRequest bodyNoAmount)).calls = [.queryRow insertSQL "coffee" ⟨0⟩] ∧
    emptyStore.rows.length = 0 ∧
    (transactionsHandler emptyStore DbEnv.healthy ResponseWriter.new
      (postRequest bodyNoAmount)).db.rows = [⟨1, "coffee", ⟨0⟩⟩] := by
  refine ⟨?_, ?_, ?_, ?_, ?_, ?_⟩ <;> decide

/-- Claim C2, amended: a `POST` whose JSON-object body lacks `description` or
`amount` is not rejected for that. When the body decodes (no member present is
ill-typed), the missing field has its zero value (empty text, amount 0), the
handler issues the INSERT with the decoded values and does not answer 400;
when the INSERT succeeds the answer is 200 and the table has one more row. -/
theorem missing_field_still_inserts (db : Store) (env : DbEnv) (r : Request)
    (members : List (String × JSON)) (t : Transaction)
    (hm : r.method = "POST") (hb : r.body = .value (.object members))
    (hd : decode r.body = .ok t) :
    (hasField members .description = false → t.Description = "") ∧
    (hasField members .amount = false → t.Amount = ⟨0⟩) ∧
    (transactionsHandler db env ResponseWriter.new r).calls =
      [.queryRow insertSQL t.Description t.Amount] ∧
    (transactionsHandler db env ResponseWriter.new r).w.code ≠ 400 ∧
    (∀ db1 id, db.insert env t.Description t.Amount = (db1, .ok id) →
      (transactionsHandler db env ResponseWriter.new r).w.code = 200 ∧
      (transactionsHandler db env ResponseWriter.new r).db.rows.length = db.rows.length + 1) := by
  have ht : t = (decodeMembers members Transaction.zero none).1 := by
    rw [hb] at hd
    exact decode_object_ok members t hd
  have hpost := post_decoded db env r t hm hd
  refine ⟨?_, ?_, ?_, ?_, ?_⟩
  · intro h
    rw [ht, decodeMembers_description members _ _ h]
    rfl
  · intro h
    rw [ht, decodeMembers_amount members _ _ h]
    rfl
  · rw [hpost]
    rcases hins : db.insert env t.Description t.Amount with ⟨db1, _ | _⟩ <;> rfl
  · rw [hpost]
    rcases hins : db.insert env t.Description t.Amount with ⟨db1, _ | _⟩
    · simp [httpError_new, ResponseWriter.code, statusInternalServerError]
    · simp [encode_new, ResponseWriter.code]
  · intro db1 id hins
    rw [hpost, hins]
    simp only [encode_new]
    refine ⟨rfl, ?_⟩
    rw [(insert_ok db db1 env _ _ id hins).2]
    simp

/-- Claim C2 amended, at the body `{"description":"coffee"}` on an empty table. -/
theorem missing_field_still_inserts_witness :
    (hasField [("description", JSON.string "coffee")] .amount = false →
      (⟨0, "coffee", ⟨0⟩⟩ : Transaction).Amount = ⟨0⟩) ∧
    (transactionsHandler emptyStore DbEnv.healthy ResponseWriter.new
      (postRequest bodyNoAmount)).calls = [.queryRow insertSQL "coffee" ⟨0⟩] ∧
    (transactionsHandler emptyStore DbEnv.healthy ResponseWriter.new
      (postRequest bodyNoAmount)).w.code = 200 ∧
    (transactionsHandler emptyStore DbEnv.healthy ResponseWriter.new
      (postRequest bodyNoAmount)).db.rows.length = emptyStore.rows.length + 1 :=
  have h := missing_field_still_inserts emptyStore DbEnv.healthy (postRequest bodyNoAmount)
    [("description", JSON.string "coffee")] ⟨0, "coffee", ⟨0⟩⟩ rfl rfl rfl
  ⟨h.2.1, h.2.2.1, h.2.2.2.2 ⟨[⟨1, "coffee", ⟨0⟩⟩], 1⟩ 1 rfl⟩

/-- Claim C6: a `POST` whose body decodes to `t` and whose INSERT succeeds with
id `id` gets status 200, content type `application/json` and the object with
that id and the decoded description and amount. The id is the next value of
the store's sequence and the row appended carries it. Any other body that
decodes to the same description and amount (whatever `id` it holds, or none)
gives the same database and the same response. -/
theorem create_returns_assigned_id (db db1 : Store) (env : DbEnv) (r : Request)
    (t : Transaction) (id : Int)
    (hm : r.method = "POST") (hd : decode r.body = .ok t)
    (hi : db.insert env t.Description t.Amount = (db1, .ok id)) :
    (transactionsHandler db env ResponseWriter.new r).w =
      ⟨[("Content-Type", "application/json")], some 200,
        [.json (.object [("id", .int id), ("description", .string t.Description),
          ("amount", .float t.Amount)])]⟩ ∧
    id = db.seq + 1 ∧
    (transactionsHandler db env ResponseWriter.new r).db =
      ⟨db.rows ++ [⟨id, t.Description, t.Amount⟩], id⟩ ∧
    (∀ (r2 : Request) (t2 : Transaction), r2.method = "POST" → decode r2.body = .ok t2 →
      t2.Description = t.Description → t2.Amount = t.Amount →
      transactionsHandler db env ResponseWriter.new r2 =
        transactionsHandler db env ResponseWriter.new r) := by
  have hpost := post_decoded db env r t hm hd
  have hins := insert_ok db db1 env _ _ id hi
  refine ⟨?_, hins.1, ?_, ?_⟩
  · rw [hpost, hi]
    rfl
  · rw [hpost, hi]
    exact hins.2
  · intro r2 t2 hm2 hd2 hdesc hamt
    rw [hpost, post_decoded db env r2 t2 hm2 hd2, hdesc, hamt]

/-- Claim C6 at the body `{"id":7,"description":"coffee","amount":2.5}` on a
two-row table: the row gets id 3, and the body without `id` behaves alike. -/
theorem create_returns_assigned_id_witness :
    (transactionsHandler twoRows DbEnv.healthy ResponseWriter.new (postRequest bodyWithId)).w =
      ⟨[("Content-Type", "application/json")], some 200,
        [.json (.object [("id", .int 3), ("description", .string "coffee"),
          ("amount", .float ⟨4612811918334230528⟩)])]⟩ ∧
    transactionsHandler twoRows DbEnv.healthy ResponseWriter.new (postRequest bodyPlain) =
      transactionsHandler twoRows DbEnv.healthy ResponseWriter.new (postRequest bodyWithId) :=
  have h := create_returns_assigned_id twoRows
    ⟨twoRows.rows ++ [⟨3, "coffee", ⟨4612811918334230528⟩⟩], 3⟩ DbEnv.healthy
    (postRequest bodyWithId) ⟨7, "coffee", ⟨4612811918334230528⟩⟩ 3 rfl rfl rfl
  ⟨h.1, h.2.2.2 (postRequest bodyPlain) ⟨0, "coffee", ⟨4612811918334230528⟩⟩ rfl rfl rfl rfl⟩

/-! ## The readiness probe -/

theorem failuresFrom_le (ping : Nat → Option String) (fuel i : Nat) :
    failuresFrom ping fuel i ≤ fuel := by
  induction fuel generalizing i with
  | zero => exact Nat.le_refl 0
  | succ n ih =>
    simp only [failuresFrom]
    split
    · exact Nat.zero_le _
    · exact Nat.succ_le_succ (ih (i + 1))

theorem failuresFrom_failed (ping : Nat → Option String) (fuel i j : Nat)
    (hj : j < failuresFrom ping fuel i) : ping (i + j) ≠ none := by
  induction fuel generalizing i j with
  | zero => exact absurd hj (Nat.not_lt_zero j)
  | succ n ih =>
    simp only [failuresFrom] at hj
    split at hj
    · exact absurd hj (Nat.not_lt_zero j)
    · rename_i e he
      cases j with
      | zero => simp [he]
      | succ k =>
        have := ih (i + 1) k (Nat.lt_of_succ_lt_succ hj)
        rwa [show i + (k + 1) = i + 1 + k by omega]

theorem failuresFrom_success (ping : Nat → Option String) (fuel i : Nat)
    (h : failuresFrom ping fuel i < fuel) : ping (i + failuresFrom ping fuel i) = none := by
  induction fuel generalizing i with
  | zero => exact absurd h (Nat.not_lt_zero _)
  | succ n ih =>
    simp only [failuresFrom] at h ⊢
    split
    · rename_i he
      simpa using he
    · rename_i e he
      simp only [he] at h
      have := ih (i + 1) (Nat.lt_of_succ_lt_succ h)
      rwa [show i + (failuresFrom ping n (i + 1) + 1) = i + 1 + failuresFrom ping n (i + 1) by omega]

/-- The events of the loop: the failed attempts, then the successful check if
one came in time. -/
theorem pingLoop_events (ping : Nat → Option String) (fuel i : Nat) (err : Option String)
    (hi : i + fuel = maxRetries) :
    (pingLoop ping maxRetries fuel i err).2 =
      retryEvents ping (failuresFrom ping fuel i) i ++
        (if failuresFrom ping fuel i < fuel then [.ping (i + failuresFrom ping fuel i) none]
          else []) := by
  induction fuel generalizing i err with
  | zero => rfl
  | succ n ih =>
    have hlt : i < maxRetries := by omega
    simp only [pingLoop, if_pos hlt, failuresFrom]
    cases he : ping i with
    | none => simp [retryEvents]
    | some e =>
      simp only [retryEvents, he, Option.getD_some, List.cons_append]
      rw [ih (i + 1) (some e) (by omega)]
      simp only [Nat.add_lt_add_iff_right]
      rw [show i + (failuresFrom ping n (i + 1) + 1) = i + 1 + failuresFrom ping n (i + 1) by omega]

/-- The value of `err` after the loop: nil when a check succeeded, else the
error of the last check made. -/
theorem pingLoop_err (ping : Nat → Option String) (fuel i : Nat) (err : Option String)
    (hi : i + fuel = maxRetries) :
    (pingLoop ping maxRetries fuel i err).1 =
      if failuresFrom ping fuel i < fuel then none
      else if fuel = 0 then err else ping (i + fuel - 1) := by
  induction fuel generalizing i err with
  | zero => rfl
  | succ n ih =>
    have hlt : i < maxRetries := by omega
    simp only [pingLoop, if_pos hlt, failuresFrom]
    rcases Option.eq_none_or_eq_some (ping i) with he | ⟨e, he⟩
    · simp only [he]
      simp
    · simp only [he]
      rw [ih (i + 1) (some e) (by omega)]
      simp only [Nat.add_lt_add_iff_right, Nat.add_one_ne_zero, if_false]
      by_cases hf : failuresFrom ping n (i + 1) < n
      · simp [hf]
      · simp only [hf, if_false]
        by_cases hn : n = 0
        · subst hn
          simp [he]
        · simp only [hn, if_false]
          rw [show i + 1 + n - 1 = i + (n + 1) - 1 by omega]

theorem pingCount_retryEvents (ping : Nat → Option String) (n i : Nat) :
    pingCount (retryEvents ping n i) = n := by
  induction n generalizing i with
  | zero => rfl
  | succ k ih =>
    have := ih (i + 1)
    simp only [pingCount] at this ⊢
    simp [retryEvents, List.countP_cons, Event.isPing, this]

theorem sleepCount_retryEvents (ping : Nat → Option String) (n i : Nat) :
    sleepCount (retryEvents ping n i) = n := by
  induction n generalizing i with
  | zero => rfl
  | succ k ih =>
    have := ih (i + 1)
    simp only [sleepCount] at this ⊢
    simp [retryEvents, List.countP_cons, Event.isSleep, this]

theorem retryEvents_no_fatal (ping : Nat → Option String) (n i : Nat) :
    (retryEvents ping n i).any Event.isFatalConnect = false := by
  induction n generalizing i with
  | zero => rfl
  | succ k ih => simp [retryEvents, Event.isFatalConnect, ih (i + 1)]

theorem afterCreate_counts (createErr : Option String) :
    pingCount (afterCreate createErr) = 0 ∧ sleepCount (afterCreate createErr) = 0 ∧
      (afterCreate createErr).any Event.isFatalConnect = false := by
  cases createErr <;> exact ⟨rfl, rfl, rfl⟩

/-- The whole run of `bootstrap`, in terms of the number of leading failures. -/
theorem bootstrap_trace (ping : Nat → Option String) (createErr : Option String) :
    bootstrap ping createErr =
      retryEvents ping (leadingFailures ping) 0 ++
        (if leadingFailures ping < 30 then
          [.ping (leadingFailures ping) none, .logConnected, .exec createTableSQL] ++
            afterCreate createErr
        else [.fatalConnect 30 ((ping 29).getD "")]) := by
  have hev := pingLoop_events ping maxRetries 0 none (by simp)
  have herr := pingLoop_err ping maxRetries 0 none (by simp)
  have hle := failuresFrom_le ping maxRetries 0
  simp only [Nat.zero_add] at hev herr
  unfold bootstrap
  rcases hres : pingLoop ping maxRetries maxRetries 0 none with ⟨perr, evs⟩
  rw [hres] at hev herr
  simp only at hev herr
  have hlf : failuresFrom ping maxRetries 0 = leadingFailures ping := rfl
  rw [hlf] at hev herr hle
  by_cases hf : leadingFailures ping < 30
  · have hfm : leadingFailures ping < maxRetries := hf
    rw [if_pos hfm] at hev herr
    rw [if_pos hf]
    subst herr
    subst hev
    simp
  · have hfm : ¬ leadingFailures ping < maxRetries := hf
    have h29 : ping 29 ≠ none := by
      have h30 : maxRetries = 30 := rfl
      have := failuresFrom_failed ping maxRetries 0 29 (by rw [hlf]; omega)
      simpa using this
    rw [if_neg hfm] at hev herr
    rw [if_neg hf]
    have herr2 : perr = ping 29 := herr
    obtain ⟨e, he⟩ := Option.ne_none_iff_exists'.mp h29
    rw [he] at herr2
    subst herr2
    subst hev
    simp [he, maxRetries]

/-- Claim C9, refuted as stated: when every liveness check fails, the probe
sleeps one second after the 30th failure as well, although no attempt follows
it (the next event is the fatal exit); it sleeps 30 times for 30 checks. -/
theorem sleep_after_last_failure :
    sleepOnlyBeforeRetry (bootstrap (fun _ => some "connection refused") none) = false ∧
    pingCount (bootstrap (fun _ => some "connection refused") none) = 30 ∧
    sleepCount (bootstrap (fun _ => some "connection refused") none) = 30 ∧
    (bootstrap (fun _ => some "connection refused") none).drop 87 =
      [.ping 29 (some "connection refused"), .logRetry 30 30 "connection refused", .sleep 1,
        .fatalConnect 30 "connection refused"] := by
  refine ⟨?_, ?_, ?_, ?_⟩ <;> decide

/-- Claim C9, amended: for every sequence of liveness-check outcomes, with `f`
the position (from 0) of the first success among the first 30 checks, or 30
when they all fail: the run is the `f` failed attempts, each one a check, a
log line and a one-second sleep, followed either (`f < 30`) by the successful
check, the connected log line and the table statement, or (`f = 30`) by the
fatal exit. So at most 30 checks are made, their number is `min (f + 1) 30`,
none follows the first success, the fatal exit for an unreachable database
happens exactly when the first 30 checks all fail, and a one-second sleep
follows every failed check, the 30th included: there are `f` sleeps. -/
theorem readiness_probe_behaviour (ping : Nat → Option String) (createErr : Option String) :
    leadingFailures ping ≤ 30 ∧
    (∀ j, j < leadingFailures ping → ping j ≠ none) ∧
    (leadingFailures ping < 30 → ping (leadingFailures ping) = none) ∧
    bootstrap ping createErr =
      retryEvents ping (leadingFailures ping) 0 ++
        (if leadingFailures ping < 30 then
          [.ping (leadingFailures ping) none, .logConnected, .exec createTableSQL] ++
            afterCreate createErr
        else [.fatalConnect 30 ((ping 29).getD "")]) ∧
    pingCount (bootstrap ping createErr) ≤ 30 ∧
    pingCount (bootstrap ping createErr) = min (leadingFailures ping + 1) 30 ∧
    sleepCount (bootstrap ping createErr) = leadingFailures ping ∧
    ((bootstrap ping createErr).any Event.isFatalConnect = true ↔
      ∀ j, j < 30 → ping j ≠ none) := by
  have hle : leadingFailures ping ≤ 30 := failuresFrom_le ping maxRetries 0
  have hfail : ∀ j, j < leadingFailures ping → ping j ≠ none := by
    intro j hj
    have := failuresFrom_failed ping maxRetries 0 j hj
    simpa using this
  have hsucc : leadingFailures ping < 30 → ping (leadingFailures ping) = none := by
    intro h
    have := failuresFrom_success ping maxRetries 0 h
    simpa [leadingFailures] using this
  have htrace := bootstrap_trace ping createErr
  have hac := afterCreate_counts createErr
  have hpc : pingCount (bootstrap ping createErr) = min (leadingFailures ping + 1) 30 := by
    rw [htrace]
    have h1 := pingCount_retryEvents ping (leadingFailures ping) 0
    have h2 := hac.1
    simp only [pingCount] at h1 h2 ⊢
    by_cases hf : leadingFailures ping < 30
    · simp only [if_pos hf, List.countP_append, List.countP_cons, List.countP_nil, h1, h2,
        Event.isPing]
      simp
      omega
    · simp only [if_neg hf, List.countP_append, List.countP_cons, List.countP_nil, h1,
        Event.isPing]
      simp
      omega
  have hsc : sleepCount (bootstrap ping createErr) = leadingFailures ping := by
    rw [htrace]
    have h1 := sleepCount_retryEvents ping (leadingFailures ping) 0
    have h2 := hac.2.1
    simp only [sleepCount] at h1 h2 ⊢
    by_cases hf : leadingFailures ping < 30
    · simp only [if_pos hf, List.countP_append, List.countP_cons, List.countP_nil, h1, h2,
        Event.isSleep]
      simp
    · simp only [if_neg hf, List.countP_append, List.countP_cons, List.countP_nil, h1,
        Event.isSleep]
      simp
  refine ⟨hle, hfail, hsucc, htrace, ?_, hpc, hsc, ?_⟩
  · rw [hpc]
    exact Nat.min_le_right _ _
  · rw [htrace]
    by_cases hf : leadingFailures ping < 30
    · simp only [if_pos hf, List.any_append, retryEvents_no_fatal, hac.2.2, List.any_cons,
        List.any_nil, Event.isFatalConnect, Bool.or_false, Bool.false_or]
      constructor
      · intro h
        exact absurd h (by decide)
      · intro h
        exact absurd (hsucc hf) (h _ hf)
    · simp only [if_neg hf, List.any_append, retryEvents_no_fatal, List.any_cons,
        List.any_nil, Event.isFatalConnect, Bool.or_false, Bool.false_or, true_iff]
      intro j hj
      exact hfail j (by omega)

/-! ## Ids across a run of requests -/

theorem insert_monotone (db : Store) (env : DbEnv) (d : String) (a : Float64) :
    db.rows <+: (db.insert env d a).1.rows ∧ db.seq ≤ (db.insert env d a).1.seq := by
  unfold Store.insert
  split
  · rename_i f _
    refine ⟨List.prefix_refl _, ?_⟩
    simp only
    split <;> omega
  · simp only
    split
    · exact ⟨List.prefix_refl _, Int.le_refl _⟩
    · split
      · exact ⟨List.prefix_refl _, by simp⟩
      · exact ⟨List.prefix_append _ _, by simp⟩

theorem createdId_httpError (msg : String) (code : Nat) :
    createdId (httpError ResponseWriter.new msg code) = none := by
  rw [httpError_new]
  rfl

/-- One run of `transactionsHandler`: the rows already there stay as a prefix,
the sequence does not go back, and an id reported for a creation lies above
the old sequence value and not above the new one. -/
theorem transactionsHandler_step (db : Store) (env : DbEnv) (r : Request) :
    db.rows <+: (transactionsHandler db env ResponseWriter.new r).db.rows ∧
    db.seq ≤ (transactionsHandler db env ResponseWriter.new r).db.seq ∧
    ∀ n, createdId (transactionsHandler db env ResponseWriter.new r).w = some n →
      db.seq < n ∧ n ≤ (transactionsHandler db env ResponseWriter.new r).db.seq := by
  by_cases hg : r.method = "GET"
  · have h : (transactionsHandler db env ResponseWriter.new r).db = db ∧
        createdId (transactionsHandler db env ResponseWriter.new r).w = none := by
      simp only [transactionsHandler, if_pos hg]
      split
      · exact ⟨rfl, createdId_httpError _ _⟩
      · split
        · exact ⟨rfl, createdId_httpError _ _⟩
        · rename_i ts _
          cases ts <;> exact ⟨rfl, rfl⟩
    rw [h.1, h.2]
    exact ⟨List.prefix_refl _, Int.le_refl _, fun n hn => by simp at hn⟩
  · by_cases hp : r.method = "POST"
    · cases hd : decode r.body with
      | error e =>
        have h : transactionsHandler db env ResponseWriter.new r =
            ⟨db, httpError ResponseWriter.new e statusBadRequest, []⟩ := by
          simp only [transactionsHandler, if_neg hg, if_pos hp, hd]
        rw [h]
        simp only [createdId_httpError]
        exact ⟨List.prefix_refl _, Int.le_refl _, fun n hn => by simp at hn⟩
      | ok t =>
        rw [post_decoded db env r t hp hd]
        have hmono := insert_monotone db env t.Description t.Amount
        rcases hins : db.insert env t.Description t.Amount with ⟨db1, e | id⟩
        · rw [hins] at hmono
          simp only [createdId_httpError]
          exact ⟨hmono.1, hmono.2, fun n hn => by simp at hn⟩
        · rw [hins] at hmono
          have hok := insert_ok db db1 env _ _ id hins
          refine ⟨hmono.1, hmono.2, ?_⟩
          intro n hn
          have hid : n = id := by
            have : createdId (encode (ResponseWriter.new.setHeader "Content-Type"
                "application/json") (.object ({ t with ID := id }).toJSON)) = some id := rfl
            simp only at hn
            rw [this] at hn
            exact ((Option.some.injEq _ _).mp hn).symm
          subst hid
          simp only
          rw [hok.2]
          simp only
          omega
    · have h : transactionsHandler db env ResponseWriter.new r =
          ⟨db, httpError ResponseWriter.new "Method not allowed" statusMethodNotAllowed, []⟩ := by
        simp only [transactionsHandler, if_neg hg, if_neg hp]
      rw [h]
      simp only [createdId_httpError]
      exact ⟨List.prefix_refl _, Int.le_refl _, fun n hn => by simp at hn⟩

/-- The same for any request handled by the mux. -/
theorem serveMux_step (db : Store) (env : DbEnv) (r : Request) :
    db.rows <+: (serveMux db env r).db.rows ∧
    db.seq ≤ (serveMux db env r).db.seq ∧
    ∀ n, createdId (serveMux db env r).w = some n →
      db.seq < n ∧ n ≤ (serveMux db env r).db.seq := by
  unfold serveMux
  split
  · exact transactionsHandler_step db env r
  · split
    · exact ⟨List.prefix_refl _, Int.le_refl _, fun n hn => by simp [healthHandler, createdId,
        ResponseWriter.write, ResponseWriter.writeHeader, ResponseWriter.new] at hn⟩
    · simp only [createdId_httpError]
      exact ⟨List.prefix_refl _, Int.le_refl _, fun n hn => by simp at hn⟩

theorem serve_cons (db : Store) (x : Exchange) (xs : List Exchange) :
    serve db (x :: xs) =
      ((serve (serveMux db x.env x.req).db xs).1,
        serveMux db x.env x.req :: (serve (serveMux db x.env x.req).db xs).2) := rfl

theorem serve_ids (db : Store) (xs : List Exchange) :
    List.Pairwise (· < ·) (createdIds (serve db xs).2) ∧
    (∀ n ∈ createdIds (serve db xs).2, db.seq < n) ∧
    db.rows <+: (serve db xs).1.rows ∧
    db.seq ≤ (serve db xs).1.seq := by
  induction xs generalizing db with
  | nil =>
    exact ⟨List.Pairwise.nil, fun n hn => by simp [serve, createdIds] at hn,
      List.prefix_refl _, Int.le_refl _⟩
  | cons x xs ih =>
    have hstep := serveMux_step db x.env x.req
    have hrest := ih (serveMux db x.env x.req).db
    rw [serve_cons]
    simp only [createdIds, List.filterMap_cons]
    refine ⟨?_, ?_, hstep.1.trans hrest.2.2.1, Int.le_trans hstep.2.1 hrest.2.2.2⟩
    · cases hc : createdId (serveMux db x.env x.req).w with
      | none => exact hrest.1
      | some n =>
        simp only
        refine List.Pairwise.cons ?_ hrest.1
        intro m hm
        have h1 := (hstep.2.2 n hc).2
        have h2 := hrest.2.1 m hm
        omega
    · cases hc : createdId (serveMux db x.env x.req).w with
      | none =>
        intro m hm
        have h2 := hrest.2.1 m hm
        have h1 := hstep.2.1
        omega
      | some n =>
        intro m hm
        simp only [List.mem_cons] at hm
        rcases hm with hm | hm
        · rw [hm]
          exact (hstep.2.2 n hc).1
        · have h2 := hrest.2.1 m hm
          have h1 := hstep.2.1
          omega

/-- Claim C7: for every database state and every sequence of requests served
one after the other, under serial id assignment by the store, the ids reported
by the successful creations are strictly increasing in the order of the
requests (so each differs from and exceeds every earlier one); and no request
changes a row that exists: the rows before it are a prefix of the rows after
it, for one request and for the whole sequence. -/
theorem created_ids_strictly_increase (db : Store) (xs : List Exchange) :
    List.Pairwise (· < ·) (createdIds (serve db xs).2) ∧
    db.rows <+: (serve db xs).1.rows ∧
    (∀ (env : DbEnv) (r : Request), db.rows <+: (serveMux db env r).db.rows) :=
  ⟨(serve_ids db xs).1, (serve_ids db xs).2.2.1, fun env r => (serveMux_step db env r).1⟩

/-! ## Listing what was created -/

theorem orderById_of_sorted (rs : List Transaction)
    (h : List.Pairwise (fun a b => a.ID < b.ID) rs) : orderById rs = rs := by
  induction rs with
  | nil => rfl
  | cons r rest ih =>
    rw [List.pairwise_cons] at h
    simp only [orderById]
    rw [ih h.2]
    cases rest with
    | nil => rfl
    | cons x xs =>
      have hlt : r.ID < x.ID := h.1 x (List.mem_cons_self x xs)
      simp only [insertById, if_pos hlt]

theorem scanOutcomes_none (i : Nat) (rs : List Transaction) :
    scanOutcomes none i rs = rs.map Except.ok := by
  induction rs generalizing i with
  | nil => rfl
  | cons r rest ih => simp only [scanOutcomes, List.map_cons, ih (i + 1)]

theorem scanLoop_ok (rs : List Transaction) (acc : GoSlice Transaction) :
    ∃ out, scanLoop (rs.map Except.ok) acc = .ok out ∧ out.elems = acc.elems ++ rs := by
  induction rs generalizing acc with
  | nil => exact ⟨acc, rfl, by simp⟩
  | cons r rest ih =>
    obtain ⟨out, h1, h2⟩ := ih (acc.append r)
    refine ⟨out, ?_, ?_⟩
    · simp only [List.map_cons, scanLoop]
      exact h1
    · rw [h2]
      simp [GoSlice.append, GoSlice.elems]

/-- A list request during which the database does not fail hands the encoder
all rows in ascending id order and answers 200 with them. -/
theorem list_healthy (db : Store) (env : DbEnv) (r : Request) (hm : r.method = "GET")
    (hq : env.queryErr = none) (hs : env.scanErr = none) (hi : env.iterErr = none) :
    ∃ out : GoSlice Transaction,
      listedTransactions db env = some out ∧
      out.elems = orderById db.rows ∧
      transactionsHandler db env ResponseWriter.new r =
        ⟨db, ⟨[("Content-Type", "application/json")], some 200, [.json (marshalTransactions out)]⟩,
          [.query selectSQL]⟩ := by
  have hquery : db.query env = .ok ⟨(orderById db.rows).map Except.ok, none⟩ := by
    simp only [Store.query, hq, hi, hs, scanOutcomes_none, Option.map_none']
  obtain ⟨out, h1, h2⟩ := scanLoop_ok (orderById db.rows) none
  refine ⟨out, ?_, ?_, ?_⟩
  · simp only [listedTransactions, hquery, h1]
  · simpa [GoSlice.elems] using h2
  · simp only [transactionsHandler, if_pos hm, hquery, h1, encode_new]

/-- A run of successful creations appends one row per request, in order, with
the posted description and amount and with the ids reported to the clients. -/
theorem posts_append (db : Store) (xs : List Exchange) (ts : List Transaction)
    (hposts : List.Forall₂ (fun x t => x.req.path = "/transactions" ∧ x.req.method = "POST" ∧
      decode x.req.body = .ok t) xs ts)
    (hok : ∀ s ∈ (serve db xs).2, s.w.code = 200) :
    ∃ fresh : List Transaction,
      (serve db xs).1.rows = db.rows ++ fresh ∧
      fresh.length = xs.length ∧
      fresh.map descAmount = ts.map descAmount ∧
      fresh.map (fun t => t.ID) = createdIds (serve db xs).2 ∧
      List.Pairwise (fun a b => a.ID < b.ID) fresh ∧
      ∀ r ∈ fresh, db.seq < r.ID := by
  induction hposts generalizing db with
  | nil => exact ⟨[], by simp [serve], rfl, rfl, rfl, List.Pairwise.nil, fun r hr => by simp at hr⟩
  | @cons x t xs ts hx _ ih =>
    obtain ⟨hpath, hmeth, hdec⟩ := hx
    have hmux : serveMux db x.env x.req = transactionsHandler db x.env ResponseWriter.new x.req := by
      simp only [serveMux, if_pos hpath]
    have hpost := post_decoded db x.env x.req t hmeth hdec
    rw [serve_cons] at hok ⊢
    have hcode := hok _ (List.mem_cons_self _ _)
    rcases hins : db.insert x.env t.Description t.Amount with ⟨db1, e | id⟩
    · rw [hmux, hpost, hins] at hcode
      simp [httpError_new, ResponseWriter.code, statusInternalServerError] at hcode
    · have hio := insert_ok db db1 x.env _ _ id hins
      have hs : serveMux db x.env x.req =
          ⟨db1, encode (ResponseWriter.new.setHeader "Content-Type" "application/json")
            (.object ({ t with ID := id }).toJSON),
            [.queryRow insertSQL t.Description t.Amount]⟩ := by
        rw [hmux, hpost, hins]
      have hrest : ∀ s ∈ (serve db1 xs).2, s.w.code = 200 := by
        intro s hsm
        apply hok
        rw [hs]
        exact List.mem_cons_of_mem _ hsm
      obtain ⟨fresh, h1, h2, h3, h4, h5, h6⟩ := ih db1 hrest
      have hseq : db1.seq = id := by rw [hio.2]
      have hrows : db1.rows = db.rows ++ [⟨id, t.Description, t.Amount⟩] := by rw [hio.2]
      refine ⟨⟨id, t.Description, t.Amount⟩ :: fresh, ?_, ?_, ?_, ?_, ?_, ?_⟩
      · rw [hs]
        simp only
        rw [h1, hrows]
        simp
      · simp [h2]
      · simp only [List.map_cons, h3]
        rfl
      · rw [hs]
        simp only [List.map_cons, createdIds, List.filterMap_cons]
        have hc : createdId (encode (ResponseWriter.new.setHeader "Content-Type"
            "application/json") (.object ({ t with ID := id }).toJSON)) = some id := rfl
        rw [hc]
        simp only [List.cons.injEq, true_and]
        exact h4
      · refine List.Pairwise.cons ?_ h5
        intro r hr
        have := h6 r hr
        simp only
        omega
      · intro r hr
        simp only [List.mem_cons] at hr
        rcases hr with hr | hr
        · rw [hr]
          simp only
          omega
        · have := h6 r hr
          omega

/-- Claim C4: starting from an empty table, after any number of creations that
each decode and succeed (status 200), a list request during which the
database does not fail answers 200 with exactly one transaction per creation,
in strictly ascending id order; the k-th carries the description and amount
decoded from the k-th creation, and its id is the one reported to that
client. Amounts are carried unchanged. -/
theorem list_after_posts (db : Store) (xs : List Exchange) (ts : List Transaction) (env : DbEnv)
    (hempty : db.rows = [])
    (hposts : List.Forall₂ (fun x t => x.req.path = "/transactions" ∧ x.req.method = "POST" ∧
      decode x.req.body = .ok t) xs ts)
    (hok : ∀ s ∈ (serve db xs).2, s.w.code = 200)
    (hq : env.queryErr = none) (hs : env.scanErr = none) (hi : env.iterErr = none) :
    ∃ out : GoSlice Transaction,
      listedTransactions (serve db xs).1 env = some out ∧
      (transactionsHandler (serve db xs).1 env ResponseWriter.new getRequest).w =
        ⟨[("Content-Type", "application/json")], some 200,
          [.json (marshalTransactions out)]⟩ ∧
      out.elems.length = xs.length ∧
      List.Pairwise (· < ·) (out.elems.map (fun t => t.ID)) ∧
      out.elems.map descAmount = ts.map descAmount ∧
      out.elems.map (fun t => t.ID) = createdIds (serve db xs).2 := by
  obtain ⟨fresh, h1, h2, h3, h4, h5, _⟩ := posts_append db xs ts hposts hok
  rw [hempty, List.nil_append] at h1
  obtain ⟨out, g1, g2, g3⟩ := list_healthy (serve db xs).1 env getRequest rfl hq hs hi
  rw [h1, orderById_of_sorted fresh h5] at g2
  refine ⟨out, g1, ?_, ?_, ?_, ?_, ?_⟩
  · rw [g3]
  · rw [g2, h2]
  · rw [g2, List.pairwise_map]
    exact h5
  · rw [g2, h3]
  · rw [g2, h4]

/-- Claim C4 at two creations on the empty table: the list holds the two rows,
ids 1 and 2, in the order posted. -/
theorem list_after_posts_witness :
    ∃ out : GoSlice Transaction,
      listedTransactions (serve emptyStore twoPosts).1 DbEnv.healthy = some out ∧
      (transactionsHandler (serve emptyStore twoPosts).1 DbEnv.healthy ResponseWriter.new
        getRequest).w =
        ⟨[("Content-Type", "application/json")], some 200,
          [.json (marshalTransactions out)]⟩ ∧
      out.elems.length = twoPosts.length ∧
      List.Pairwise (· < ·) (out.elems.map (fun t => t.ID)) ∧
      out.elems.map descAmount =
        [("coffee", ⟨0⟩), ("coffee", ⟨4612811918334230528⟩)] ∧
      out.elems.map (fun t => t.ID) = createdIds (serve emptyStore twoPosts).2 :=
  list_after_posts emptyStore twoPosts
    [⟨0, "coffee", ⟨0⟩⟩, ⟨7, "coffee", ⟨4612811918334230528⟩⟩] DbEnv.healthy rfl
    (List.Forall₂.cons ⟨rfl, rfl, rfl⟩ (List.Forall₂.cons ⟨rfl, rfl, rfl⟩ List.Forall₂.nil))
    (by decide) rfl rfl rfl

end TransactionApi
